import Mathlib

/-!
Verification of the dev-events Next.js repository against its specification.

The development shallowly embeds the code of
`src/app/api/events/[slug]/route.ts` (connection accessor `dbConnect`,
slug validation `isValidSlug`, route handler `GET`) together with the
Event slug derivation and the Booking creation path of the database
layer.  The Event schema implementation is absent from the source
tree (only its tests are present), so the slug derivation is modelled
from the specification, as marked on each such definition; the
Booking schema implementation is present, embedded in
`src/TEST_SUITE_README.md` after the document separators, and the
Booking definitions are embedded from it.
-/

/-! ## Values and documents

JavaScript values, as far as the route handler observes them: the
handler coerces document fields with the JS `String(...)` conversion. -/

/-- Minimal model of a JavaScript value appearing in a stored document. -/
inductive JsVal where
  | vStr : String → JsVal
  | vNum : Int → JsVal
  | vBool : Bool → JsVal
  | vNull : JsVal
  | vUndef : JsVal
deriving DecidableEq

/-- Model of the JavaScript `String(...)` coercion on `JsVal`. -/
def jsString : JsVal → String
  | .vStr s => s
  | .vNum n => toString n
  | .vBool b => if b then "true" else "false"
  | .vNull => "null"
  | .vUndef => "undefined"

/-- An Event document as returned by `Event.findOne({slug}).lean()`:
the six public fields, plus whatever other fields the stored document
carries (`_id`, timestamps, ...), modelled as an association list. -/
structure EventDoc where
  image : JsVal
  title : JsVal
  slug : JsVal
  location : JsVal
  date : JsVal
  time : JsVal
  extra : List (String × JsVal)
deriving DecidableEq

/-- The public event shape (`EventPublic` in route.ts): six string fields. -/
structure EventPublic where
  image : String
  title : String
  slug : String
  location : String
  date : String
  time : String
deriving DecidableEq

/-- Mapping of a found document to the public shape (route.ts lines 96-103):
each of the six fields is read off the document and coerced with `String(...)`;
no other document field is consulted. -/
def project (doc : EventDoc) : EventPublic :=
  { image := jsString doc.image
    title := jsString doc.title
    slug := jsString doc.slug
    location := jsString doc.location
    date := jsString doc.date
    time := jsString doc.time }

/-! ## The connection accessor `dbConnect` (route.ts lines 39-58)

The mongoose handle is abstracted to a natural number.  The global
cache `{ conn, promise }` is explicit state.  A promise slot holds the
in-flight attempt together with its eventual outcome
(`Except String Conn`); awaiting the slot observes that outcome.  A
call of `dbConnect` is one synchronous run of the function body up to
and including the `await cache.promise`; the `fresh` argument is the
outcome the underlying `mongoose.connect` attempt would produce if
this call starts one.  The returned `Bool` records whether the call
started a new underlying connect attempt (line 54). -/

/-- A live connection handle (the mongoose module instance). -/
abbrev Conn := Nat

deriving instance DecidableEq for Except

/-- Model of the module-level cache `globalWithMongoose.mongoose`. -/
structure MongooseCache where
  conn : Option Conn
  promise : Option (Except String Conn)
deriving DecidableEq

/-- JS truthiness of the module-level `MONGODB_URI` constant:
`if (!MONGODB_URI)` is taken when the variable is unset or empty. -/
def uriMissing : Option String → Bool
  | none => true
  | some u => u == ""

/-- Error message thrown by `dbConnect` when `MONGODB_URI` is not set
(route.ts line 49). -/
def uriErrMsg : String := "MONGODB_URI is not configured in environment variables"

/-- Embedding of `dbConnect` (route.ts lines 47-58).
Returns the result the caller awaits, the cache after the call, and
whether this call started a new underlying connect attempt.
Note line 56: `cache.conn = await cache.promise` — on a rejected
promise the assignment does not happen and nothing clears
`cache.promise`, so the failed attempt stays cached. -/
def dbConnect (uri : Option String) (cache : MongooseCache)
    (fresh : Except String Conn) :
    Except String Conn × MongooseCache × Bool :=
  if uriMissing uri then
    (Except.error uriErrMsg, cache, false)
  else
    match cache.conn with
    | some c => (Except.ok c, cache, false)
    | none =>
      let started := cache.promise.isNone
      let p := cache.promise.getD fresh
      match p with
      | Except.ok c => (Except.ok c, { conn := some c, promise := some p }, started)
      | Except.error e => (Except.error e, { conn := none, promise := some p }, started)

/-- Cache state after one completed attempt with outcome `f`: on
success the handle is cached, on failure the rejected attempt remains
in the promise slot. -/
def postCache (f : Except String Conn) : MongooseCache :=
  match f with
  | Except.ok c => { conn := some c, promise := some f }
  | Except.error _ => { conn := none, promise := some f }

/-- A sequence of `dbConnect` calls threading the cache; `fs` lists,
for each call, the outcome a fresh underlying attempt would produce.
Returns the per-call results, the final cache state, and the total
number of underlying connect attempts started. -/
def dbConnectRuns (uri : Option String) :
    MongooseCache → List (Except String Conn) →
    List (Except String Conn) × MongooseCache × Nat
  | cache, [] => ([], cache, 0)
  | cache, f :: fs =>
    let r := dbConnect uri cache f
    let rest := dbConnectRuns uri r.2.1 fs
    (r.1 :: rest.1, rest.2.1, (if r.2.2 then 1 else 0) + rest.2.2)

/-! ## Slug validation and the `GET` handler (route.ts lines 61-122) -/

/-- Character class `[a-z0-9]` (lowercase ASCII letter or digit). -/
def isSlugChar (c : Char) : Bool :=
  (97 ≤ c.toNat && c.toNat ≤ 122) || (48 ≤ c.toNat && c.toNat ≤ 57)

/-- Embedding of `isValidSlug` (route.ts lines 61-63): the argument is
a string matching `^[a-z0-9-]{1,100}$`. -/
def isValidSlug (s : String) : Bool :=
  1 ≤ s.length && s.length ≤ 100 && s.data.all (fun c => isSlugChar c || c == '-')

/-- Body of a JSON response produced by the handler: either
`{success: true, data}` or `{success: false, error: {code, message}}`. -/
inductive ApiBody where
  | ok : EventPublic → ApiBody
  | err : String → String → ApiBody
deriving DecidableEq

/-- A response of the handler: HTTP status, JSON body, and the
`Cache-Control` header when the handler sets one. -/
structure ApiResponse where
  status : Nat
  body : ApiBody
  cacheControl : Option String
deriving DecidableEq

/-- Response for an absent slug parameter (route.ts lines 71-76).
The source message wraps the word slug in single quotes. -/
def missingSlugResp : ApiResponse :=
  { status := 400, body := .err "MISSING_SLUG" "Parameter slug is required.", cacheControl := none }

/-- Response for a present but ill-formed slug (route.ts lines 77-82).
The source message wraps the word slug in single quotes. -/
def invalidSlugResp : ApiResponse :=
  { status := 400, body := .err "INVALID_SLUG" "Parameter slug must be a lowercase slug (a-z, 0-9, -).", cacheControl := none }

/-- Response when no Event matches the slug (route.ts lines 88-93). -/
def notFoundResp : ApiResponse :=
  { status := 404, body := .err "NOT_FOUND" "Event not found.", cacheControl := none }

/-- Response of the catch-all error branch (route.ts lines 115-121):
a fixed body that carries no detail of the caught exception. -/
def internalErrorResp : ApiResponse :=
  { status := 500, body := .err "INTERNAL_SERVER_ERROR" "An unexpected error occurred.", cacheControl := none }

/-- The caching header set on the success response (route.ts line 111). -/
def cacheHeader : String := "public, s-maxage=60, stale-while-revalidate=300"

/-- Success response with the projected event (route.ts lines 105-114). -/
def okResp (e : EventPublic) : ApiResponse :=
  { status := 200, body := .ok e, cacheControl := some cacheHeader }

/-- Environment a request runs against: the module-level connection
string, the outcome of a fresh underlying connect attempt, and the
outcome of `Event.findOne({slug}).lean().exec()` per slug (an
`Except.error` models the query throwing). -/
structure DbEnv where
  uri : Option String
  connectOutcome : Except String Conn
  findOne : String → Except String (Option EventDoc)

/-- Embedding of the `GET` handler (route.ts lines 66-122).  The slug
parameter is `none` when absent (or `undefined`/`null`); `some ""`
models a present empty string, which the truthiness test
`if (!slug)` also sends to the `MISSING_SLUG` branch.  Every
exception of `dbConnect` or of the query is caught by the
surrounding `try`/`catch` and becomes the fixed 500 response, so the
embedding is a total function. -/
def GET (env : DbEnv) (cache : MongooseCache) (slugParam : Option String) :
    ApiResponse × MongooseCache :=
  match slugParam with
  | none => (missingSlugResp, cache)
  | some s =>
    if s = "" then (missingSlugResp, cache)
    else if !(isValidSlug s) then (invalidSlugResp, cache)
    else
      match dbConnect env.uri cache env.connectOutcome with
      | (Except.error _, cache2, _) => (internalErrorResp, cache2)
      | (Except.ok _, cache2, _) =>
        match env.findOne s with
        | Except.error _ => (internalErrorResp, cache2)
        | Except.ok none => (notFoundResp, cache2)
        | Except.ok (some doc) => (okResp (project doc), cache2)

/-- An internal failure of a request: the connection attempt rejects,
or the connection succeeds and the query throws. -/
def internalFailure (env : DbEnv) (cache : MongooseCache) (s : String) : Prop :=
  (∃ e c2 b, dbConnect env.uri cache env.connectOutcome = (Except.error e, c2, b)) ∨
  (∃ c c2 b e, dbConnect env.uri cache env.connectOutcome = (Except.ok c, c2, b) ∧
      env.findOne s = Except.error e)

/-! ## Slug derivation

Modelled from the spec: the Event schema implementation
(`@/database/event.model`, referenced by the test suite) is not part
of the source tree.  Section 4.2 of the specification gives the
derivation algorithm computed from `title` at creation: lowercase,
replace any run of characters outside `[a-z0-9]` with a single
hyphen, trim leading/trailing hyphens.  `slugify` below is that
pipeline as a single left-to-right pass; `slugifyRuns` restates the
run-replacement step literally (each maximal run of characters
outside `[a-z0-9]` becomes one hyphen) and is proved equal to
`slugify` for every input. -/

/-- ASCII model of the JavaScript `toLowerCase()` on one character. -/
def jsToLower (c : Char) : Char :=
  if 65 ≤ c.toNat ∧ c.toNat ≤ 90 then Char.ofNat (c.toNat + 32) else c

/-- Lowercasing step of the derivation. -/
def lowerChars (l : List Char) : List Char := l.map jsToLower

/-- One pass replacing runs of non-`[a-z0-9]` characters by single
hyphens; the flag records whether the previous character was part of
such a run (whose hyphen has already been emitted). -/
def collapse : List Char → Bool → List Char
  | [], _ => []
  | c :: rest, inRun =>
    if isSlugChar c then c :: collapse rest false
    else if inRun then collapse rest true
    else '-' :: collapse rest true

/-- Complement of the class `[a-z0-9]`. -/
def notSlugChar (c : Char) : Bool := !isSlugChar c

/-- Literal form of the run-replacement step: each maximal run of
characters outside `[a-z0-9]` becomes one hyphen. -/
def replaceRuns : List Char → List Char
  | [] => []
  | c :: rest =>
    if isSlugChar c then c :: replaceRuns rest
    else '-' :: replaceRuns (rest.dropWhile notSlugChar)
termination_by l => l.length
decreasing_by
  · simp only [List.length_cons]; omega
  · simp only [List.length_cons]
    exact Nat.lt_succ_of_le (List.Sublist.length_le (List.dropWhile_sublist _))

/-- Test for the hyphen character. -/
def isHyphen (c : Char) : Bool := c == '-'

/-- Removal of trailing characters satisfying `p`. -/
def dropTrailing (p : Char → Bool) : List Char → List Char
  | [] => []
  | c :: rest =>
    match dropTrailing p rest with
    | [] => if p c then [] else [c]
    | r => c :: r

/-- Removal of trailing hyphens. -/
def trimRight (l : List Char) : List Char := dropTrailing isHyphen l

/-- Removal of leading and trailing hyphens. -/
def trimHyphens (l : List Char) : List Char := trimRight (l.dropWhile isHyphen)

/-- Test for the absence of two adjacent hyphens. -/
def noDH : List Char → Bool
  | a :: b :: rest => !(a == '-' && b == '-') && noDH (b :: rest)
  | _ => true

/-- Test for not starting with a hyphen. -/
def headNotHyphen : List Char → Bool
  | [] => true
  | c :: _ => !(c == '-')

/-- Modelled from the spec: slug derivation from a title at Event
creation (spec section 4.2), on character lists. -/
def slugifyChars (l : List Char) : List Char :=
  trimHyphens (collapse (lowerChars l) false)

/-- Modelled from the spec: slug derivation from a title at Event
creation (spec section 4.2). -/
def slugify (s : String) : String := String.mk (slugifyChars s.data)

/-- Slug derivation with the run-replacement step stated literally. -/
def slugifyRuns (s : String) : String :=
  String.mk (trimHyphens (replaceRuns (lowerChars s.data)))

/-! ## Booking creation

The Booking schema implementation (`@/database/booking.model`) is
embedded in `src/TEST_SUITE_README.md` after the document separators:
`eventId` is a required ObjectId reference with an asynchronous
existence validator (`Event.findById`), `email` is required with the
`lowercase` and `trim` schema options and a regex validator, a
pre-save hook re-checks the referenced Event (catching a failing
lookup), and timestamps are automatic.  The definitions below embed
that schema.  Mongoose casts first, then runs the schema validators
of all paths collecting their failures, and runs the user pre-save
hook only after validation succeeds; a failed write persists
nothing. -/

/-- Errors of the Booking write path of the schema embedded in
`src/TEST_SUITE_README.md`: the cast failure of an uncastable
`eventId`, the two field `required` failures, the two field validator
failures, and the two errors of the pre-save hook. -/
inductive BErr where
  | castError
  | requiredEventId
  | danglingEventId
  | requiredEmail
  | invalidEmail
  | hookMissingEvent
  | hookLookupFailed (msg : String)
deriving DecidableEq

/-- Messages the embedded schema attaches to each error (the cast
failure message is abbreviated from the mongoose CastError text). -/
def bErrMessage : BErr → String
  | .castError => "Cast to ObjectId failed"
  | .requiredEventId => "Event ID is required"
  | .danglingEventId => "Referenced event does not exist"
  | .requiredEmail => "Email is required"
  | .invalidEmail => "Please provide a valid email address"
  | .hookMissingEvent => "Cannot create booking: Event does not exist"
  | .hookLookupFailed msg => "Event validation failed: " ++ msg

/-- Value supplied for `eventId` on a write: absent, present but not
castable to an ObjectId, or a valid ObjectId (abstracted to `Nat`). -/
inductive EventIdInput where
  | absent
  | invalid
  | objectId (id : Nat)
deriving DecidableEq

/-- Character admissible in the email pattern atoms (`[^\s@]`),
with `\s` restricted to ASCII whitespace. -/
def isEmailAtomChar (c : Char) : Bool := !(c == '@') && !c.isWhitespace

/-- Embedded from the Booking schema in `src/TEST_SUITE_README.md`:
the email validator regex `^[^\s@]+@[^\s@]+\.[^\s@]+$` — a nonempty
local part without whitespace or `@`, one `@`, and a domain
containing a dot with at least one admissible character on each
side. -/
def validEmail (s : String) : Bool :=
  let l := s.data
  let lp := l.takeWhile (fun c => !(c == '@'))
  match l.dropWhile (fun c => !(c == '@')) with
  | [] => false
  | _ :: dom =>
    !lp.isEmpty && lp.all isEmailAtomChar && !dom.isEmpty &&
      dom.all isEmailAtomChar && ((dom.drop 1).dropLast.contains '.')

/-- Removal of leading and trailing whitespace (JS `trim()`). -/
def trimWs (l : List Char) : List Char :=
  dropTrailing Char.isWhitespace (l.dropWhile Char.isWhitespace)

/-- Embedded from the Booking schema in `src/TEST_SUITE_README.md`:
the `lowercase: true` and `trim: true` options applied to `email`
before its validators run (ASCII model of the JS lowercasing). -/
def normEmail (s : String) : String := String.mk (lowerChars (trimWs s.data))

/-- A persisted Booking record (timestamps omitted). -/
structure BookingRec where
  eventId : Nat
  email : String
deriving DecidableEq

/-- The store as the Booking write path observes it: the identifiers
of the existing Events, and the persisted Bookings. -/
structure Store where
  events : List Nat
  bookings : List BookingRec
deriving DecidableEq

/-- Input of a Booking creation; `email` is `none` when absent. -/
structure BookingInput where
  eventId : EventIdInput
  email : Option String

/-- Embedded from the Booking schema in `src/TEST_SUITE_README.md`:
casting and schema validation of a new Booking document.  The
`eventId` path needs a present, castable ObjectId whose Event exists
in the store (the asynchronous validator queries `Event.findById`);
the `email` path is lowercased and trimmed by its options, then
checked for presence (mongoose `required` rejects the empty string)
and against the regex.  Failures of both paths are collected. -/
def bookingValidate (st : Store) (inp : BookingInput) : List BErr :=
  (match inp.eventId with
   | .absent => [BErr.requiredEventId]
   | .invalid => [BErr.castError]
   | .objectId id =>
     if st.events.contains id then [] else [BErr.danglingEventId]) ++
  (match inp.email with
   | none => [BErr.requiredEmail]
   | some e =>
     if normEmail e = "" then [BErr.requiredEmail]
     else if validEmail (normEmail e) then [] else [BErr.invalidEmail])

/-- Embedded from the Booking schema in `src/TEST_SUITE_README.md`:
the pre-save hook.  On a new document it re-checks that the
referenced Event exists; a lookup that throws is caught and re-raised
as the `Event validation failed` error (`lookupFault` carries the
thrown message, `none` when the lookup answers from the store); an
absent Event aborts the save with the `Cannot create booking`
error. -/
def bookingHook (st : Store) (id : Nat) (lookupFault : Option String) : List BErr :=
  match lookupFault with
  | some msg => [BErr.hookLookupFailed msg]
  | none => if st.events.contains id then [] else [BErr.hookMissingEvent]

/-- Embedded from the Booking schema in `src/TEST_SUITE_README.md`:
Booking creation.  Mongoose casts and validates first; only when
validation succeeds does the pre-save hook run, and only when the
hook passes is the record persisted, with the normalized email; any
failure leaves the store unchanged. -/
def bookingCreate (st : Store) (inp : BookingInput) (lookupFault : Option String) :
    List BErr × Store :=
  match bookingValidate st inp, inp.eventId, inp.email with
  | [], .objectId id, some e =>
    (match bookingHook st id lookupFault with
     | [] =>
       ([], { st with bookings :=
           st.bookings ++ [{ eventId := id, email := normEmail e }] })
     | errs => (errs, st))
  | errs, _, _ => (errs, st)

/-! ## Properties of the connection accessor -/

/-- A call of `dbConnect` on a cache holding a completed attempt with
outcome `f` reproduces that outcome, leaves the cache unchanged and
starts no new attempt, whatever a fresh attempt would produce. -/
theorem dbConnect_steady (u : String) (hu : u ≠ "") (f g : Except String Conn) :
    dbConnect (some u) (postCache f) g = (f, postCache f, false) := by
  cases f with
  | ok c => simp [dbConnect, uriMissing, hu, postCache]
  | error e => simp [dbConnect, uriMissing, hu, postCache]

/-- Iterating `dbConnect` from a completed attempt replays its outcome
and starts nothing. -/
theorem dbConnectRuns_steady (u : String) (hu : u ≠ "") (f : Except String Conn) :
    ∀ fs, dbConnectRuns (some u) (postCache f) fs =
      (List.replicate fs.length f, postCache f, 0) := by
  intro fs
  induction fs with
  | nil => rfl
  | cons g fs ih =>
    simp [dbConnectRuns, dbConnect_steady u hu f g, ih, List.replicate_succ]

/-- The first call on an empty cache starts one attempt and completes it. -/
theorem dbConnect_first (u : String) (hu : u ≠ "") (f : Except String Conn) :
    dbConnect (some u) { conn := none, promise := none } f = (f, postCache f, true) := by
  cases f with
  | ok c => simp [dbConnect, uriMissing, hu, postCache]
  | error e => simp [dbConnect, uriMissing, hu, postCache]

/-- C1 (counterexample): with the connection string configured and an
empty cache, a failed connect attempt is propagated, but the cached
in-flight attempt is NOT cleared: the promise slot still holds the
failed attempt, and a subsequent call starts no fresh attempt (even
one that would succeed) and fails with the same error again.  This
refutes the claim that the accessor clears the cached in-flight
attempt so that a subsequent call starts a fresh connection attempt. -/
theorem dbConnect_failed_attempt_not_cleared :
    (dbConnect (some "mongodb://localhost:27017/dev-events") { conn := none, promise := none }
        (Except.error "connect ECONNREFUSED")).1 = Except.error "connect ECONNREFUSED" ∧
    (dbConnect (some "mongodb://localhost:27017/dev-events") { conn := none, promise := none }
        (Except.error "connect ECONNREFUSED")).2.1.promise ≠ none ∧
    (dbConnect (some "mongodb://localhost:27017/dev-events")
        (dbConnect (some "mongodb://localhost:27017/dev-events") { conn := none, promise := none }
          (Except.error "connect ECONNREFUSED")).2.1 (Except.ok 0)).2.2 = false ∧
    (dbConnect (some "mongodb://localhost:27017/dev-events")
        (dbConnect (some "mongodb://localhost:27017/dev-events") { conn := none, promise := none }
          (Except.error "connect ECONNREFUSED")).2.1 (Except.ok 0)).1 =
      Except.error "connect ECONNREFUSED" := by
  refine ⟨rfl, by decide, rfl, rfl⟩

/-- C1 (amended): when a `dbConnect` call fails (with the connection
string configured), the failure is propagated to the caller, but the
cached in-flight attempt is not cleared: the rejected attempt stays in
the promise slot, and every subsequent call re-awaits it, failing with
the same error without starting a fresh connection attempt. -/
theorem dbConnect_failure_retains_attempt :
    ∀ (u : String) (cache cache2 : MongooseCache) (f : Except String Conn) (e : String) (b : Bool),
      u ≠ "" →
      dbConnect (some u) cache f = (Except.error e, cache2, b) →
      cache2.conn = none ∧ cache2.promise = some (Except.error e) ∧
      ∀ g, dbConnect (some u) cache2 g = (Except.error e, cache2, false) := by
  intro u cache cache2 f e b hu h
  cases hconn : cache.conn with
  | some c => simp [dbConnect, uriMissing, hu, hconn] at h
  | none =>
    cases hp : cache.promise with
    | some p =>
      cases p with
      | ok c => simp [dbConnect, uriMissing, hu, hconn, hp] at h
      | error e2 =>
        simp [dbConnect, uriMissing, hu, hconn, hp] at h
        obtain ⟨he, hc2, -⟩ := h
        subst he
        refine ⟨by simp [← hc2], by simp [← hc2], ?_⟩
        intro g
        simp [dbConnect, uriMissing, hu, ← hc2]
    | none =>
      cases f with
      | ok c => simp [dbConnect, uriMissing, hu, hconn, hp] at h
      | error e2 =>
        simp [dbConnect, uriMissing, hu, hconn, hp] at h
        obtain ⟨he, hc2, -⟩ := h
        subst he
        refine ⟨by simp [← hc2], by simp [← hc2], ?_⟩
        intro g
        simp [dbConnect, uriMissing, hu, ← hc2]

/-- C1 (witness). -/
theorem dbConnect_failure_retains_attempt_witness :
    { conn := none, promise := some (Except.error "boom") : MongooseCache }.conn = none ∧
    ({ conn := none, promise := some (Except.error "boom") : MongooseCache }.promise =
      some (Except.error "boom")) ∧
    ∀ g, dbConnect (some "mongodb://db") { conn := none, promise := some (Except.error "boom") } g =
      (Except.error "boom", { conn := none, promise := some (Except.error "boom") }, false) :=
  dbConnect_failure_retains_attempt "mongodb://db" { conn := none, promise := none }
    { conn := none, promise := some (Except.error "boom") } (Except.error "boom") "boom" true
    (by decide) (by decide)

/-- C4: the connection cache admits at most one underlying connect
attempt (connection string configured): a cached handle is returned
unchanged without a new attempt; an in-flight attempt is awaited
rather than duplicated; and any run of calls starting from the empty
cache performs exactly one underlying connect attempt, every call
observing the outcome of that single first attempt. -/
theorem dbConnect_single_attempt :
    (∀ (u : String) (cache : MongooseCache) (c : Conn) (f : Except String Conn),
        u ≠ "" → cache.conn = some c →
        dbConnect (some u) cache f = (Except.ok c, cache, false)) ∧
    (∀ (u : String) (cache : MongooseCache) (p f : Except String Conn),
        u ≠ "" → cache.conn = none → cache.promise = some p →
        (dbConnect (some u) cache f).1 = p ∧ (dbConnect (some u) cache f).2.2 = false) ∧
    (∀ (u : String) (f : Except String Conn) (fs : List (Except String Conn)),
        u ≠ "" →
        (dbConnectRuns (some u) { conn := none, promise := none } (f :: fs)).2.2 = 1 ∧
        (dbConnectRuns (some u) { conn := none, promise := none } (f :: fs)).1 =
          List.replicate (fs.length + 1) f) := by
  refine ⟨?_, ?_, ?_⟩
  · intro u cache c f hu hconn
    simp [dbConnect, uriMissing, hu, hconn]
  · intro u cache p f hu hconn hp
    cases p with
    | ok c => simp [dbConnect, uriMissing, hu, hconn, hp]
    | error e => simp [dbConnect, uriMissing, hu, hconn, hp]
  · intro u f fs hu
    have h1 := dbConnect_first u hu f
    have h2 := dbConnectRuns_steady u hu f fs
    constructor
    · simp [dbConnectRuns, h1, h2]
    · simp [dbConnectRuns, h1, h2, List.replicate_succ]

/-- C4 (witness). -/
theorem dbConnect_single_attempt_witness :
    dbConnect (some "mongodb://db") { conn := some 3, promise := none } (Except.ok 9) =
      (Except.ok 3, { conn := some 3, promise := none }, false) ∧
    ((dbConnect (some "mongodb://db") { conn := none, promise := some (Except.ok 5) }
        (Except.ok 9)).1 = Except.ok 5 ∧
      (dbConnect (some "mongodb://db") { conn := none, promise := some (Except.ok 5) }
        (Except.ok 9)).2.2 = false) ∧
    (dbConnectRuns (some "mongodb://db") { conn := none, promise := none }
        [Except.ok 7, Except.ok 8, Except.error "late"]).2.2 = 1 ∧
    (dbConnectRuns (some "mongodb://db") { conn := none, promise := none }
        [Except.ok 7, Except.ok 8, Except.error "late"]).1 =
      List.replicate 3 (Except.ok 7) :=
  ⟨dbConnect_single_attempt.1 "mongodb://db" { conn := some 3, promise := none } 3
      (Except.ok 9) (by decide) rfl,
    dbConnect_single_attempt.2.1 "mongodb://db" { conn := none, promise := some (Except.ok 5) }
      (Except.ok 5) (Except.ok 9) (by decide) rfl rfl,
    dbConnect_single_attempt.2.2 "mongodb://db" (Except.ok 7)
      [Except.ok 8, Except.error "late"] (by decide)⟩

/-- C9: with the connection-string variable absent at module
initialization, every call of `dbConnect` — whatever the cache state
and however the underlying store would behave — raises the same
configuration error, changes nothing and never starts a connect
attempt; iterating calls only repeats the same error.  The
configuration is read once into a module-level constant, so within
one process the condition cannot clear. -/
theorem dbConnect_missing_uri_permanent :
    ∀ (cache : MongooseCache) (f : Except String Conn) (fs : List (Except String Conn)),
      dbConnect none cache f = (Except.error uriErrMsg, cache, false) ∧
      (dbConnectRuns none cache fs).1 = List.replicate fs.length (Except.error uriErrMsg) ∧
      (dbConnectRuns none cache fs).2.1 = cache ∧
      (dbConnectRuns none cache fs).2.2 = 0 := by
  intro cache f fs
  have hone : ∀ g, dbConnect none cache g = (Except.error uriErrMsg, cache, false) := by
    intro g; simp [dbConnect, uriMissing]
  refine ⟨hone f, ?_⟩
  induction fs with
  | nil => exact ⟨rfl, rfl, rfl⟩
  | cons g fs ih =>
    obtain ⟨ih1, ih2, ih3⟩ := ih
    refine ⟨?_, ?_, ?_⟩
    · simp [dbConnectRuns, hone g, ih1, List.replicate_succ]
    · simp [dbConnectRuns, hone g, ih2]
    · simp [dbConnectRuns, hone g, ih3]

/-! ## Properties of the `GET` handler -/

/-- A well-formed slug is nonempty. -/
theorem isValidSlug_ne_empty {s : String} (h : isValidSlug s = true) : s ≠ "" := by
  intro he
  subst he
  exact absurd h (by decide)

/-- C10: totality of the handler at its boundary.  For every request
and every behavior of the connection accessor and of the store query
(including thrown exceptions, which the embedding carries as
`Except.error` values consumed by the catch-all branch), `GET`
returns exactly one response whose status is 200, 400, 404 or 500,
with a `{success: true, data}` body exactly on status 200 and a
`{success: false, error: {code, message}}` body otherwise. -/
theorem GET_total_boundary :
    ∀ (env : DbEnv) (cache : MongooseCache) (sp : Option String),
      ((GET env cache sp).1.status = 200 ∧
          ∃ d, (GET env cache sp).1.body = ApiBody.ok d) ∨
      (((GET env cache sp).1.status = 400 ∨ (GET env cache sp).1.status = 404 ∨
            (GET env cache sp).1.status = 500) ∧
        ∃ code msg, (GET env cache sp).1.body = ApiBody.err code msg) := by
  intro env cache sp
  cases sp with
  | none => exact Or.inr ⟨Or.inl rfl, _, _, rfl⟩
  | some s =>
    by_cases h1 : s = ""
    · right
      simp [GET, h1, missingSlugResp]
    · by_cases h2 : isValidSlug s
      · rcases hdb : dbConnect env.uri cache env.connectOutcome with ⟨r, c2, b⟩
        cases r with
        | error e =>
          right
          simp [GET, h1, h2, hdb, internalErrorResp]
        | ok c =>
          cases hq : env.findOne s with
          | error e =>
            right
            simp [GET, h1, h2, hdb, hq, internalErrorResp]
          | ok o =>
            cases o with
            | none =>
              right
              simp [GET, h1, h2, hdb, hq, notFoundResp]
            | some doc =>
              left
              simp [GET, h1, h2, hdb, hq, okResp]
      · right
        simp [GET, h1, h2, invalidSlugResp]

/-- C2 (code evaluated at the failing input): the empty string is a
present slug parameter that fails the format check
`^[a-z0-9-]{1,100}$`, yet the handler answers it with the
`MISSING_SLUG` response, not the `INVALID_SLUG` one: the truthiness
test `if (!slug)` on route.ts line 71 already catches the empty
string.  The repository test suite
(`src/__tests__/app/api/events/route.test.ts`, "should reject empty
slug") expects `INVALID_SLUG` here. -/
theorem GET_empty_slug_yields_missing_slug :
    isValidSlug "" = false ∧
    (GET { uri := some "mongodb://localhost:27017/dev-events", connectOutcome := Except.ok 0,
            findOne := fun _ => Except.ok none }
        { conn := none, promise := none } (some "")).1 = missingSlugResp ∧
    missingSlugResp ≠ invalidSlugResp :=
  ⟨by decide, rfl, by decide⟩

/-- C3: on a well-formed slug with a successful connection and a
matching document, the handler returns a 200 response whose data is
exactly the six public fields of the document, each obtained by the
`String(...)` coercion, together with the caching header
`Cache-Control: public, s-maxage=60, stale-while-revalidate=300`;
and the projected body does not depend on any other field of the
stored document. -/
theorem GET_found_projection :
    ∀ (env : DbEnv) (cache cache2 : MongooseCache) (s : String) (doc : EventDoc)
      (c : Conn) (b : Bool),
      isValidSlug s = true →
      dbConnect env.uri cache env.connectOutcome = (Except.ok c, cache2, b) →
      env.findOne s = Except.ok (some doc) →
      (GET env cache (some s)).1 =
        { status := 200
          body := ApiBody.ok
            { image := jsString doc.image, title := jsString doc.title,
              slug := jsString doc.slug, location := jsString doc.location,
              date := jsString doc.date, time := jsString doc.time }
          cacheControl := some "public, s-maxage=60, stale-while-revalidate=300" } ∧
      ∀ ex : List (String × JsVal), project { doc with extra := ex } = project doc := by
  intro env cache cache2 s doc c b hv hdb hq
  have hs : ¬ s = "" := isValidSlug_ne_empty hv
  constructor
  · simp [GET, hs, hv, hdb, hq, okResp, cacheHeader, project]
  · intro ex
    simp [project]

/-- C3 (witness). -/
theorem GET_found_projection_witness :
    (GET
        { uri := some "mongodb://db", connectOutcome := Except.ok 0,
          findOne := fun s =>
            if s = "react-summit-2025" then
              Except.ok (some
                { image := .vStr "/images/event1.png", title := .vStr "React Summit 2025",
                  slug := .vStr "react-summit-2025", location := .vStr "San Francisco, CA",
                  date := .vStr "2025-11-07", time := .vStr "09:00 AM",
                  extra := [("_id", .vStr "665f1a2b3c4d5e6f70819203")] })
            else Except.ok none }
        { conn := none, promise := none } (some "react-summit-2025")).1 =
      { status := 200
        body := ApiBody.ok
          { image := "/images/event1.png", title := "React Summit 2025",
            slug := "react-summit-2025", location := "San Francisco, CA",
            date := "2025-11-07", time := "09:00 AM" }
        cacheControl := some "public, s-maxage=60, stale-while-revalidate=300" } ∧
    ∀ ex : List (String × JsVal),
      project
        { image := .vStr "/images/event1.png", title := .vStr "React Summit 2025",
          slug := .vStr "react-summit-2025", location := .vStr "San Francisco, CA",
          date := .vStr "2025-11-07", time := .vStr "09:00 AM", extra := ex } =
      project
        { image := .vStr "/images/event1.png", title := .vStr "React Summit 2025",
          slug := .vStr "react-summit-2025", location := .vStr "San Francisco, CA",
          date := .vStr "2025-11-07", time := .vStr "09:00 AM",
          extra := [("_id", .vStr "665f1a2b3c4d5e6f70819203")] } :=
  GET_found_projection _ _ { conn := some 0, promise := some (Except.ok 0) }
    "react-summit-2025"
    { image := .vStr "/images/event1.png", title := .vStr "React Summit 2025",
      slug := .vStr "react-summit-2025", location := .vStr "San Francisco, CA",
      date := .vStr "2025-11-07", time := .vStr "09:00 AM",
      extra := [("_id", .vStr "665f1a2b3c4d5e6f70819203")] }
    0 true (by decide) rfl rfl

/-- A request whose connection or query fails is answered with the
fixed 500 response. -/
theorem GET_internal_500 (env : DbEnv) (cache : MongooseCache) (s : String)
    (hv : isValidSlug s = true) (hf : internalFailure env cache s) :
    (GET env cache (some s)).1 = internalErrorResp := by
  have hs : ¬ s = "" := isValidSlug_ne_empty hv
  rcases hf with ⟨e, c2, b, hdb⟩ | ⟨c, c2, b, e, hdb, hq⟩
  · simp [GET, hs, hv, hdb]
  · simp [GET, hs, hv, hdb, hq]

/-- C8: internal failures produce one fixed response.  Whenever the
connection attempt or the subsequent query fails, the handler answers
500 `INTERNAL_SERVER_ERROR` with a body independent of the thrown
error: any two requests for the same well-formed slug that both fail
internally — for any two environments, caches and error payloads —
produce identical responses, equal to the fixed 500 response, so no
part of the exception reaches the caller. -/
theorem GET_internal_error_uniform :
    ∀ (s : String) (env1 env2 : DbEnv) (cache1 cache2 : MongooseCache),
      isValidSlug s = true →
      internalFailure env1 cache1 s → internalFailure env2 cache2 s →
      (GET env1 cache1 (some s)).1 = (GET env2 cache2 (some s)).1 ∧
      (GET env1 cache1 (some s)).1 = internalErrorResp := by
  intro s env1 env2 cache1 cache2 hv h1 h2
  have g1 := GET_internal_500 env1 cache1 s hv h1
  have g2 := GET_internal_500 env2 cache2 s hv h2
  exact ⟨g1.trans g2.symm, g1⟩

/-- C8 (witness): a connection failure and a query failure with
different error payloads yield the same fixed 500 response. -/
theorem GET_internal_error_uniform_witness :
    (GET { uri := some "mongodb://db", connectOutcome := Except.error "connect ECONNREFUSED",
            findOne := fun _ => Except.ok none }
        { conn := none, promise := none } (some "valid-slug")).1 =
      (GET { uri := some "mongodb://db", connectOutcome := Except.ok 0,
              findOne := fun _ => Except.error "MongoServerSelectionError at query" }
          { conn := none, promise := none } (some "valid-slug")).1 ∧
    (GET { uri := some "mongodb://db", connectOutcome := Except.error "connect ECONNREFUSED",
            findOne := fun _ => Except.ok none }
        { conn := none, promise := none } (some "valid-slug")).1 = internalErrorResp :=
  GET_internal_error_uniform "valid-slug" _ _ { conn := none, promise := none }
    { conn := none, promise := none } (by decide)
    (Or.inl ⟨"connect ECONNREFUSED", { conn := none, promise := some (Except.error "connect ECONNREFUSED") }, true, rfl⟩)
    (Or.inr ⟨0, { conn := some 0, promise := some (Except.ok 0) }, true,
      "MongoServerSelectionError at query", rfl, rfl⟩)

/-! ## Properties of Booking creation -/

/-- C7: a Booking creation whose `eventId` does not refer to an Event
existing in the store at the time of the write fails with the
dangling-reference error of the schema validator (message
`Referenced event does not exist`), and the store is left unchanged —
no Booking record is persisted by the failed write.  This holds for
every email value and every behavior of the hook lookup, since the
pre-save hook never runs when validation fails. -/
theorem bookingCreate_dangling :
    ∀ (st : Store) (inp : BookingInput) (id : Nat) (lookupFault : Option String),
      inp.eventId = EventIdInput.objectId id → st.events.contains id = false →
      BErr.danglingEventId ∈ (bookingCreate st inp lookupFault).1 ∧
      (bookingCreate st inp lookupFault).2 = st := by
  intro st inp id lookupFault hid hcon
  have hmem : id ∉ st.events := by simpa using hcon
  have hv : bookingValidate st inp =
      BErr.danglingEventId ::
        (match inp.email with
         | none => [BErr.requiredEmail]
         | some e =>
           if normEmail e = "" then [BErr.requiredEmail]
           else if validEmail (normEmail e) then [] else [BErr.invalidEmail]) := by
    simp [bookingValidate, hid, hmem]
  constructor
  · simp [bookingCreate, hv]
  · simp [bookingCreate, hv]

/-- C7 (witness): booking against the absent Event 2 in a store whose
only Event is 1, with a well-behaved hook lookup. -/
theorem bookingCreate_dangling_witness :
    BErr.danglingEventId ∈
      (bookingCreate { events := [1], bookings := [] }
        { eventId := EventIdInput.objectId 2, email := some "test@example.com" } none).1 ∧
    (bookingCreate { events := [1], bookings := [] }
        { eventId := EventIdInput.objectId 2, email := some "test@example.com" } none).2 =
      { events := [1], bookings := [] } :=
  bookingCreate_dangling { events := [1], bookings := [] }
    { eventId := EventIdInput.objectId 2, email := some "test@example.com" } 2 none rfl
    (by decide)

/-! ## Properties of the slug derivation -/

/-- Characters of class `[a-z0-9]` are not the hyphen. -/
theorem slugChar_not_hyphen {c : Char} (h : isSlugChar c = true) : (c == '-') = false := by
  by_cases hc : c = '-'
  · subst hc
    exact absurd h (by decide)
  · simp [hc]

/-- Lowercasing fixes characters of class `[a-z0-9]` and the hyphen. -/
theorem jsToLower_fix {c : Char} (h : isSlugChar c = true ∨ c = '-') : jsToLower c = c := by
  rcases h with h | h
  · simp only [isSlugChar, Bool.or_eq_true, Bool.and_eq_true, decide_eq_true_eq] at h
    have : ¬ (65 ≤ c.toNat ∧ c.toNat ≤ 90) := by omega
    simp [jsToLower, this]
  · subst h
    decide

/-- Mapping a function that fixes every element of a list is the identity. -/
theorem map_fix {f : Char → Char} : ∀ l : List Char, (∀ c ∈ l, f c = c) → l.map f = l := by
  intro l
  induction l with
  | nil => intro _; rfl
  | cons a rest ih =>
    intro h
    simp only [List.map_cons]
    rw [h a (List.mem_cons_self a rest), ih (fun c hc => h c (List.mem_cons_of_mem a hc))]

/-- Every character emitted by `collapse` is of class `[a-z0-9]` or a hyphen. -/
theorem mem_collapse {c : Char} : ∀ (l : List Char) (b : Bool),
    c ∈ collapse l b → isSlugChar c = true ∨ c = '-' := by
  intro l
  induction l with
  | nil => intro b h; simp [collapse] at h
  | cons a rest ih =>
    intro b h
    by_cases ha : isSlugChar a
    · rw [collapse, if_pos ha] at h
      rcases List.mem_cons.mp h with h | h
      · exact Or.inl (h ▸ ha)
      · exact ih false h
    · cases b with
      | true =>
        rw [collapse, if_neg ha, if_pos rfl] at h
        exact ih true h
      | false =>
        rw [collapse, if_neg ha] at h
        simp only [Bool.false_eq_true, if_false] at h
        rcases List.mem_cons.mp h with h | h
        · exact Or.inr h
        · exact ih true h

/-- Output of `collapse` in in-run state never starts with a hyphen. -/
theorem collapse_true_hnh : ∀ l : List Char, headNotHyphen (collapse l true) = true := by
  intro l
  induction l with
  | nil => rfl
  | cons a rest ih =>
    by_cases ha : isSlugChar a
    · rw [collapse, if_pos ha]
      simp [headNotHyphen, slugChar_not_hyphen ha]
    · rw [collapse, if_neg ha, if_pos rfl]
      exact ih

/-- Prepending a character preserves hyphen-run freedom when the pair
at the junction is not two hyphens. -/
theorem noDH_cons {a : Char} {t : List Char}
    (h1 : (a == '-') = false ∨ headNotHyphen t = true) (h2 : noDH t = true) :
    noDH (a :: t) = true := by
  cases t with
  | nil => rfl
  | cons b rest =>
    rw [noDH, Bool.and_eq_true]
    refine ⟨?_, h2⟩
    rcases h1 with h1 | h1
    · simp [h1]
    · rw [headNotHyphen] at h1
      simp only [Bool.not_eq_true'] at h1
      simp [h1]

/-- Hyphen-run freedom passes to the tail. -/
theorem noDH_tail {a : Char} {t : List Char} (h : noDH (a :: t) = true) : noDH t = true := by
  cases t with
  | nil => rfl
  | cons b rest =>
    rw [noDH, Bool.and_eq_true] at h
    exact h.2

/-- Output of `collapse` never contains two adjacent hyphens. -/
theorem noDH_collapse : ∀ (l : List Char) (b : Bool), noDH (collapse l b) = true := by
  intro l
  induction l with
  | nil => intro b; rfl
  | cons a rest ih =>
    intro b
    by_cases ha : isSlugChar a
    · rw [collapse, if_pos ha]
      exact noDH_cons (Or.inl (slugChar_not_hyphen ha)) (ih false)
    · cases b with
      | true =>
        rw [collapse, if_neg ha, if_pos rfl]
        exact ih true
      | false =>
        rw [collapse, if_neg ha]
        simp only [Bool.false_eq_true, if_false]
        exact noDH_cons (Or.inr (collapse_true_hnh rest)) (ih true)

/-- On a hyphen-run-free list over the alphabet `[a-z0-9-]`,
`collapse` is the identity (in in-run state as well, provided the
list does not start with a hyphen). -/
theorem collapse_id : ∀ l : List Char,
    (∀ c ∈ l, isSlugChar c = true ∨ c = '-') → noDH l = true →
    collapse l false = l ∧ (headNotHyphen l = true → collapse l true = l) := by
  intro l
  induction l with
  | nil => exact fun _ _ => ⟨rfl, fun _ => rfl⟩
  | cons a rest ih =>
    intro halpha hnd
    have hra : ∀ c ∈ rest, isSlugChar c = true ∨ c = '-' :=
      fun c hc => halpha c (List.mem_cons_of_mem a hc)
    have hrn : noDH rest = true := noDH_tail hnd
    obtain ⟨ih1, ih2⟩ := ih hra hrn
    by_cases ha : isSlugChar a
    · constructor
      · rw [collapse, if_pos ha, ih1]
      · intro _
        rw [collapse, if_pos ha, ih1]
    · have ha2 : a = '-' := by
        rcases halpha a (List.mem_cons_self a rest) with h | h
        · exact absurd h ha
        · exact h
      have hh : headNotHyphen rest = true := by
        cases rest with
        | nil => rfl
        | cons b r2 =>
          subst ha2
          rw [noDH, Bool.and_eq_true] at hnd
          have hb : (b == '-') = false := by simpa using hnd.1
          simp [headNotHyphen, hb]
      constructor
      · rw [collapse, if_neg ha]
        simp only [Bool.false_eq_true, if_false]
        rw [ih2 hh, ha2]
      · intro hcontra
        subst ha2
        simp [headNotHyphen] at hcontra


/-- Unfolding of `dropTrailing` on a cons cell. -/
theorem dropTrailing_cons (p : Char → Bool) (a : Char) (rest : List Char) :
    dropTrailing p (a :: rest) =
      match dropTrailing p rest with
      | [] => if p a then [] else [a]
      | r => a :: r := rfl

/-- Unfolding of `dropTrailing` on a cons cell whose tail trims to nil. -/
theorem dropTrailing_cons_of_nil (p : Char → Bool) (a : Char) (rest : List Char)
    (hr : dropTrailing p rest = []) :
    dropTrailing p (a :: rest) = if p a then [] else [a] := by
  rw [dropTrailing_cons, hr]

/-- Unfolding of `dropTrailing` on a cons cell whose tail trims to a cons. -/
theorem dropTrailing_cons_of_cons (p : Char → Bool) (a x : Char) (t rest : List Char)
    (hr : dropTrailing p rest = x :: t) :
    dropTrailing p (a :: rest) = a :: x :: t := by
  rw [dropTrailing_cons, hr]

/-- Characters surviving `dropTrailing` come from the input. -/
theorem mem_dropTrailing {c : Char} (p : Char → Bool) :
    ∀ l : List Char, c ∈ dropTrailing p l → c ∈ l := by
  intro l
  induction l with
  | nil => intro h; simp [dropTrailing] at h
  | cons a rest ih =>
    intro h
    cases hr : dropTrailing p rest with
    | nil =>
      rw [dropTrailing_cons_of_nil p a rest hr] at h
      by_cases hp : p a
      · rw [if_pos hp] at h
        simp at h
      · rw [if_neg hp] at h
        rcases List.mem_singleton.mp h with h
        simp [h]
    | cons x t =>
      rw [dropTrailing_cons_of_cons p a x t rest hr] at h
      rcases List.mem_cons.mp h with h | h
      · simp [h]
      · exact List.mem_cons_of_mem a (ih (hr ▸ h))

/-- A nonempty `dropTrailing` result starts like the input. -/
theorem dropTrailing_head (p : Char → Bool) :
    ∀ {l : List Char} {x : Char} {t : List Char},
      dropTrailing p l = x :: t → ∃ t2, l = x :: t2 := by
  intro l x t h
  cases l with
  | nil => simp [dropTrailing] at h
  | cons a rest =>
    cases hr : dropTrailing p rest with
    | nil =>
      rw [dropTrailing_cons_of_nil p a rest hr] at h
      by_cases hp : p a
      · rw [if_pos hp] at h
        simp at h
      · rw [if_neg hp] at h
        injection h with h1 h2
        exact ⟨rest, by rw [h1]⟩
    | cons y t2 =>
      rw [dropTrailing_cons_of_cons p a y t2 rest hr] at h
      injection h with h1 h2
      exact ⟨rest, by rw [h1]⟩

/-- Hyphen-run freedom is preserved by `dropWhile`. -/
theorem noDH_dropWhile (p : Char → Bool) :
    ∀ l : List Char, noDH l = true → noDH (l.dropWhile p) = true := by
  intro l
  induction l with
  | nil => intro h; simpa using h
  | cons a rest ih =>
    intro h
    by_cases hp : p a
    · rw [List.dropWhile_cons_of_pos hp]
      exact ih (noDH_tail h)
    · rw [List.dropWhile_cons_of_neg hp]
      exact h

/-- Hyphen-run freedom is preserved by `dropTrailing`. -/
theorem noDH_dropTrailing (p : Char → Bool) :
    ∀ l : List Char, noDH l = true → noDH (dropTrailing p l) = true := by
  intro l
  induction l with
  | nil => intro _; rfl
  | cons a rest ih =>
    intro h
    cases hr : dropTrailing p rest with
    | nil =>
      rw [dropTrailing_cons_of_nil p a rest hr]
      by_cases hp : p a
      · rw [if_pos hp]
        rfl
      · rw [if_neg hp]
        rfl
    | cons x t =>
      obtain ⟨t2, ht2⟩ := dropTrailing_head p hr
      subst ht2
      have hrest := ih (noDH_tail h)
      rw [hr] at hrest
      rw [noDH, Bool.and_eq_true] at h
      rw [dropTrailing_cons_of_cons p a x t _ hr]
      rw [noDH, Bool.and_eq_true]
      exact ⟨h.1, hrest⟩

/-- Applying `dropTrailing` twice equals applying it once. -/
theorem dropTrailing_idem (p : Char → Bool) :
    ∀ l : List Char, dropTrailing p (dropTrailing p l) = dropTrailing p l := by
  intro l
  induction l with
  | nil => rfl
  | cons a rest ih =>
    cases hr : dropTrailing p rest with
    | nil =>
      rw [dropTrailing_cons_of_nil p a rest hr]
      by_cases hp : p a
      · rw [if_pos hp]
        rfl
      · rw [if_neg hp]
        rw [dropTrailing_cons_of_nil p a [] rfl, if_neg hp]
    | cons x t =>
      rw [hr] at ih
      rw [dropTrailing_cons_of_cons p a x t rest hr]
      rw [dropTrailing_cons_of_cons p a x t (x :: t) ih]

/-- Dropping leading hyphens leaves no leading hyphen. -/
theorem hnh_dropWhile : ∀ l : List Char, headNotHyphen (l.dropWhile isHyphen) = true := by
  intro l
  induction l with
  | nil => rfl
  | cons a rest ih =>
    by_cases hp : isHyphen a
    · rw [List.dropWhile_cons_of_pos hp]
      exact ih
    · rw [List.dropWhile_cons_of_neg hp]
      have ha : (a == '-') = false := by simpa [isHyphen] using hp
      simp [headNotHyphen, ha]

/-- Trailing removal does not create a leading hyphen. -/
theorem hnh_dropTrailing (p : Char → Bool) (l : List Char)
    (h : headNotHyphen l = true) : headNotHyphen (dropTrailing p l) = true := by
  cases hr : dropTrailing p l with
  | nil => rfl
  | cons x t =>
    obtain ⟨t2, ht2⟩ := dropTrailing_head p hr
    subst ht2
    exact h

/-- Dropping leading hyphens fixes a list with no leading hyphen. -/
theorem dropWhile_of_hnh {m : List Char} (h : headNotHyphen m = true) :
    m.dropWhile isHyphen = m := by
  cases m with
  | nil => rfl
  | cons a t =>
    have ha : ¬ isHyphen a = true := by
      rw [headNotHyphen] at h
      simp only [Bool.not_eq_true'] at h
      simp [isHyphen, h]
    rw [List.dropWhile_cons_of_neg ha]

/-- Trimming hyphens twice equals trimming once. -/
theorem trimHyphens_idem (l : List Char) :
    trimHyphens (trimHyphens l) = trimHyphens l := by
  unfold trimHyphens trimRight
  have h1 : headNotHyphen (l.dropWhile isHyphen) = true := hnh_dropWhile l
  have h2 : headNotHyphen (dropTrailing isHyphen (l.dropWhile isHyphen)) = true :=
    hnh_dropTrailing _ _ h1
  rw [dropWhile_of_hnh h2, dropTrailing_idem]

/-- Characters surviving `trimHyphens` come from the input. -/
theorem mem_trimHyphens {c : Char} {l : List Char} (h : c ∈ trimHyphens l) : c ∈ l := by
  unfold trimHyphens trimRight at h
  exact (List.dropWhile_sublist _).subset (mem_dropTrailing _ _ h)

/-- Hyphen-run freedom is preserved by `trimHyphens`. -/
theorem noDH_trimHyphens {l : List Char} (h : noDH l = true) :
    noDH (trimHyphens l) = true := by
  unfold trimHyphens trimRight
  exact noDH_dropTrailing _ _ (noDH_dropWhile _ _ h)

/-- Characters of a derived slug are of class `[a-z0-9]` or hyphens. -/
theorem mem_slugifyChars {c : Char} {l : List Char} (h : c ∈ slugifyChars l) :
    isSlugChar c = true ∨ c = '-' :=
  mem_collapse (lowerChars l) false (mem_trimHyphens h)

/-- The slug derivation on character lists is idempotent. -/
theorem slugifyChars_idem (l : List Char) : slugifyChars (slugifyChars l) = slugifyChars l := by
  have halpha : ∀ c ∈ slugifyChars l, isSlugChar c = true ∨ c = '-' :=
    fun c hc => mem_slugifyChars hc
  have hnd : noDH (slugifyChars l) = true := noDH_trimHyphens (noDH_collapse _ false)
  have hlow : lowerChars (slugifyChars l) = slugifyChars l :=
    map_fix _ (fun c hc => jsToLower_fix (halpha c hc))
  have hcol : collapse (slugifyChars l) false = slugifyChars l :=
    (collapse_id _ halpha hnd).1
  show trimHyphens (collapse (lowerChars (slugifyChars l)) false) = slugifyChars l
  rw [hlow, hcol]
  show trimHyphens (trimHyphens (collapse (lowerChars l) false)) = slugifyChars l
  rw [trimHyphens_idem]
  rfl

/-- In in-run state `collapse` skips the pending run and continues. -/
theorem collapse_true_drop : ∀ l : List Char,
    collapse l true = collapse (l.dropWhile notSlugChar) false := by
  intro l
  induction l with
  | nil => rfl
  | cons a rest ih =>
    by_cases ha : isSlugChar a
    · have hpa : ¬ notSlugChar a = true := by simp [notSlugChar, ha]
      rw [List.dropWhile_cons_of_neg hpa]
      rw [collapse, if_pos ha, collapse, if_pos ha]
    · have hpa : notSlugChar a = true := by simp [notSlugChar, ha]
      rw [List.dropWhile_cons_of_pos hpa]
      rw [collapse, if_neg ha, if_pos rfl]
      exact ih

/-- The one-pass `collapse` implements the maximal-run replacement
(auxiliary strong induction on the length). -/
theorem collapse_false_aux : ∀ (n : Nat) (l : List Char), l.length ≤ n →
    collapse l false = replaceRuns l := by
  intro n
  induction n with
  | zero =>
    intro l h
    have hl : l = [] := List.length_eq_zero.mp (Nat.le_zero.mp h)
    subst hl
    simp [collapse, replaceRuns]
  | succ n ih =>
    intro l h
    cases l with
    | nil => simp [collapse, replaceRuns]
    | cons a rest =>
      by_cases ha : isSlugChar a
      · have hr : rest.length ≤ n := by
          simpa using Nat.succ_le_succ_iff.mp (by simpa using h)
        rw [collapse, if_pos ha, ih rest hr]
        simp [replaceRuns, ha]
      · have hlen : (rest.dropWhile notSlugChar).length ≤ n := by
          have h1 : (rest.dropWhile notSlugChar).length ≤ rest.length :=
            List.Sublist.length_le (List.dropWhile_sublist _)
          have h2 : rest.length ≤ n := by
            simpa using Nat.succ_le_succ_iff.mp (by simpa using h)
          omega
        rw [collapse, if_neg ha]
        simp only [Bool.false_eq_true, if_false]
        rw [collapse_true_drop, ih _ hlen]
        simp [replaceRuns, ha]

/-- The one-pass `collapse` implements the maximal-run replacement. -/
theorem collapse_false_replaceRuns (l : List Char) : collapse l false = replaceRuns l :=
  collapse_false_aux l.length l le_rfl

/-- C5: the slug derived from a title at Event creation is the
lowercasing of the title with every maximal run of characters outside
`[a-z0-9]` replaced by a single hyphen and leading/trailing hyphens
stripped; in particular the titles exercised by the repository test
suite (`src/__tests__/database/event.model.test.ts`) derive exactly
the slugs the tests expect, among them the scenario
title "Event: 2025 @ #Tech!" with slug "event-2025-tech". -/
theorem slugify_matches_spec :
    (∀ T : String, slugify T = slugifyRuns T) ∧
    slugify "Event: 2025 @ #Tech!" = "event-2025-tech" ∧
    slugify "Test Conference 2025" = "test-conference-2025" ∧
    slugify "React Summit 2025" = "react-summit-2025" ∧
    slugify "UPPERCASE TITLE" = "uppercase-title" ∧
    slugify "Multi Word Title" = "multi-word-title" ∧
    slugify "---Event---" = "event" ∧
    slugify "Multiple   Spaces   Event" = "multiple-spaces-event" ∧
    slugify "  Trimmed Title  " = "trimmed-title" ∧
    slugify "Findable Event" = "findable-event" := by
  refine ⟨?_, by decide, by decide, by decide, by decide, by decide, by decide,
    by decide, by decide, by decide⟩
  intro T
  show String.mk (trimHyphens (collapse (lowerChars T.data) false)) = slugifyRuns T
  rw [collapse_false_replaceRuns]
  rfl

/-- C6: the slug derivation is idempotent — deriving a slug from an
already-derived slug returns it unchanged. -/
theorem slugify_idempotent : ∀ T : String, slugify (slugify T) = slugify T := by
  intro T
  show String.mk (slugifyChars (String.mk (slugifyChars T.data)).data) =
    String.mk (slugifyChars T.data)
  exact congrArg String.mk (slugifyChars_idem T.data)
